import Mathlib

namespace MeetingDiagram

/-!
Verification development for the meeting-diagram pipeline
(`src/diagrams/flowcharts.py`).

The Python program has two stages:

1. `generate_meeting_flowchart(meeting_summary, participant_names)` builds a
   natural-language prompt embedding the participant names and the transcript,
   sends it to a completion service, and returns the reply stripped of leading
   and trailing whitespace.

2. `render_mermaid_to_svg(mermaid_code, output_file)` URL-safe-base64-encodes
   the UTF-8 bytes of the markup, issues a GET to the Kroki endpoint, and on
   success writes the UTF-8-decoded body to `output_file`; on
   `urllib.error.HTTPError` it instead writes the raw markup to
   `output_file.replace('.svg', '.mermaid')`; any other exception propagates.

The network collaborators are modelled as explicit stub responses; everything
else is translated directly from the source.  File writes are modelled for a
POSIX platform, where Python text-mode writing performs no newline
translation: the bytes on disk of a written text are its UTF-8 encoding.
-/

/-! ## UTF-8 encoding and decoding

`mermaid_code.encode('utf-8')` (line 54 of the source) and
`response.read().decode('utf-8')` (line 63).  Code points and bytes are
modelled as `Nat`.
-/

/-- UTF-8 encoding of a single Unicode code point, as a list of byte values.
Mirrors the standard UTF-8 scheme used by Python's `str.encode('utf-8')`. -/
def utf8EncodeChar (c : Nat) : List Nat :=
  if c < 0x80 then [c]
  else if c < 0x800 then [0xC0 + c / 64, 0x80 + c % 64]
  else if c < 0x10000 then
    [0xE0 + c / 4096, 0x80 + (c / 64) % 64, 0x80 + c % 64]
  else
    [0xF0 + c / 262144, 0x80 + (c / 4096) % 64, 0x80 + (c / 64) % 64,
     0x80 + c % 64]

/-- UTF-8 encoding of a sequence of code points. -/
def utf8Encode (cs : List Nat) : List Nat :=
  (cs.map utf8EncodeChar).flatten

/-- Decode a two-byte sequence whose lead byte `b1` is in `C2..DF`:
one continuation byte in `80..BF`. -/
def utf8Decode2 (b1 : Nat) : List Nat → Option (Nat × List Nat)
  | b2 :: rest =>
    if 0x80 ≤ b2 ∧ b2 < 0xC0 then
      some ((b1 - 0xC0) * 64 + (b2 - 0x80), rest)
    else none
  | [] => none

/-- Decode a three-byte sequence whose lead byte `b1` is in `E0..EF`:
two continuation bytes, rejecting overlong forms (`E0 A0..`) and
surrogates (`ED 80..9F` only). -/
def utf8Decode3 (b1 : Nat) : List Nat → Option (Nat × List Nat)
  | b2 :: b3 :: rest =>
    if 0x80 ≤ b2 ∧ b2 < 0xC0 ∧ 0x80 ≤ b3 ∧ b3 < 0xC0 then
      if b1 = 0xE0 ∧ b2 < 0xA0 then none
      else if b1 = 0xED ∧ 0xA0 ≤ b2 then none
      else some ((b1 - 0xE0) * 4096 + (b2 - 0x80) * 64 + (b3 - 0x80), rest)
    else none
  | _ => none

/-- Decode a four-byte sequence whose lead byte `b1` is in `F0..F4`:
three continuation bytes, rejecting overlong forms (`F0 90..`) and values
above U+10FFFF (`F4 80..8F` only). -/
def utf8Decode4 (b1 : Nat) : List Nat → Option (Nat × List Nat)
  | b2 :: b3 :: b4 :: rest =>
    if 0x80 ≤ b2 ∧ b2 < 0xC0 ∧ 0x80 ≤ b3 ∧ b3 < 0xC0 ∧
        0x80 ≤ b4 ∧ b4 < 0xC0 then
      if b1 = 0xF0 ∧ b2 < 0x90 then none
      else if b1 = 0xF4 ∧ 0x90 ≤ b2 then none
      else
        some ((b1 - 0xF0) * 262144 + (b2 - 0x80) * 4096 + (b3 - 0x80) * 64 +
          (b4 - 0x80), rest)
    else none
  | _ => none

/-- Decode one code point from the front of a byte sequence, mirroring the
strict UTF-8 decoder behind Python's `bytes.decode('utf-8')`.  Returns the
code point and the remaining bytes, or `none` on malformed input. -/
def utf8DecodeStep : List Nat → Option (Nat × List Nat)
  | [] => none
  | b1 :: rest =>
    if b1 < 0x80 then some (b1, rest)
    else if b1 < 0xC2 then none
    else if b1 < 0xE0 then utf8Decode2 b1 rest
    else if b1 < 0xF0 then utf8Decode3 b1 rest
    else if b1 < 0xF5 then utf8Decode4 b1 rest
    else none

/-- Repeatedly decode code points; `fuel` bounds the number of steps.
Since each step consumes at least one byte, `fuel = bs.length` always
suffices (`utf8DecodeLoop_fuel`). -/
def utf8DecodeLoop : Nat → List Nat → Option (List Nat)
  | _, [] => some []
  | 0, _ :: _ => none
  | fuel + 1, b1 :: rest =>
    (utf8DecodeStep (b1 :: rest)).bind fun cr =>
      (utf8DecodeLoop fuel cr.2).map (cr.1 :: ·)

/-- Strict UTF-8 decoding of a byte sequence into code points: `none`
exactly where Python's `bytes.decode('utf-8')` raises `UnicodeDecodeError`. -/
def utf8Decode (bs : List Nat) : Option (List Nat) :=
  utf8DecodeLoop bs.length bs

/-- A code point is a Unicode scalar value: below the surrogate range or
between it and U+10FFFF.  Every Lean `Char` carries this invariant. -/
def ScalarValue (c : Nat) : Prop :=
  c < 0xD800 ∨ (0xDFFF < c ∧ c < 0x110000)

instance (c : Nat) : Decidable (ScalarValue c) := by
  unfold ScalarValue; infer_instance

/-! ## URL-safe base64 (`base64.urlsafe_b64encode`, line 55 of the source) -/

/-- The URL-safe base64 alphabet as character codes: `A-Z`, `a-z`, `0-9`,
`-` (45), `_` (95). -/
def b64Char (v : Nat) : Nat :=
  if v < 26 then 65 + v
  else if v < 52 then 97 + (v - 26)
  else if v < 62 then 48 + (v - 52)
  else if v = 62 then 45
  else 95

/-- Inverse of `b64Char` on six-bit values. -/
def b64CharInv (ch : Nat) : Nat :=
  if 65 ≤ ch ∧ ch ≤ 90 then ch - 65
  else if 97 ≤ ch ∧ ch ≤ 122 then ch - 97 + 26
  else if 48 ≤ ch ∧ ch ≤ 57 then ch - 48 + 52
  else if ch = 45 then 62
  else 63

/-- Python `base64.urlsafe_b64encode`: bytes to character codes, three bytes per
four characters, with `=` (61) padding for a final group of one or two
bytes. -/
def b64encode : List Nat → List Nat
  | [] => []
  | [b1] => [b64Char (b1 / 4), b64Char (b1 % 4 * 16), 61, 61]
  | [b1, b2] =>
    [b64Char (b1 / 4), b64Char (b1 % 4 * 16 + b2 / 16),
     b64Char (b2 % 16 * 4), 61]
  | b1 :: b2 :: b3 :: rest =>
    b64Char (b1 / 4) :: b64Char (b1 % 4 * 16 + b2 / 16) ::
      b64Char (b2 % 16 * 4 + b3 / 64) :: b64Char (b3 % 64) :: b64encode rest

/-- Python `base64.urlsafe_b64decode` restricted to well-formed input: character
codes back to bytes, honouring `=` padding. -/
def b64decode : List Nat → List Nat
  | c1 :: c2 :: c3 :: c4 :: rest =>
    if c4 = 61 then
      if c3 = 61 then [b64CharInv c1 * 4 + b64CharInv c2 / 16]
      else
        [b64CharInv c1 * 4 + b64CharInv c2 / 16,
         b64CharInv c2 % 16 * 16 + b64CharInv c3 / 4]
    else
      (b64CharInv c1 * 4 + b64CharInv c2 / 16) ::
        (b64CharInv c2 % 16 * 16 + b64CharInv c3 / 4) ::
        (b64CharInv c3 % 4 * 64 + b64CharInv c4) :: b64decode rest
  | _ => []

/-! ## Strings as code-point lists -/

/-- The code points of a Lean string, the unit on which Python string
operations below act. -/
def strCodepoints (s : String) : List Nat := s.data.map Char.toNat

/-! ## Python string operations used by the source -/

/-- The set of characters stripped by Python's `str.strip()`
(`str.isspace`): ASCII whitespace, the C1 and Unicode space separators,
and the line/paragraph separators. -/
def isPySpace (c : Char) : Bool :=
  [9, 10, 11, 12, 13, 28, 29, 30, 31, 32, 133, 160, 5760,
    8192, 8193, 8194, 8195, 8196, 8197, 8198, 8199, 8200, 8201, 8202,
    8232, 8233, 8239, 8287, 12288].contains c.toNat

/-- Python `str.strip()` on a character list: drop whitespace from the front, then
from the back. -/
def pyStripList (cs : List Char) : List Char :=
  ((cs.dropWhile isPySpace).reverse.dropWhile isPySpace).reverse

/-- Python's `str.strip()` (line 46 of the source). -/
def pyStrip (s : String) : String := String.mk (pyStripList s.data)

/-- Python's `', '.join(participant_names)` (line 24 of the source). -/
def commaJoin : List String → String
  | [] => ""
  | [x] => x
  | x :: xs => x ++ ", " ++ commaJoin xs

/-- Python's `output_file.replace('.svg', '.mermaid')` (line 74 of the
source) on a character list: left-to-right, non-overlapping replacement of
every occurrence of `.svg` by `.mermaid`. -/
def replaceSvgAux : List Char → List Char
  | '.' :: 's' :: 'v' :: 'g' :: rest =>
    '.' :: 'm' :: 'e' :: 'r' :: 'm' :: 'a' :: 'i' :: 'd' :: replaceSvgAux rest
  | c :: rest => c :: replaceSvgAux rest
  | [] => []

/-- Python's `output_file.replace('.svg', '.mermaid')`. -/
def pyReplaceSvgExt (s : String) : String := String.mk (replaceSvgAux s.data)

/-- Whether a character list contains an occurrence of `.svg`. -/
def hasSvgOcc : List Char → Bool
  | '.' :: 's' :: 'v' :: 'g' :: _ => true
  | _ :: rest => hasSvgOcc rest
  | [] => false

/-- The fallback file name as the spec words describe it (for comparison
with the source's `pyReplaceSvgExt`): the image-extension suffix is swapped
for the text extension, leaving the rest of the name unchanged. -/
def specSwapExt (s : String) : String :=
  if ".svg".data.isSuffixOf s.data then
    String.mk (s.data.take (s.data.length - 4) ++ ".mermaid".data)
  else s

/-! ## The diagram-description generator (lines 13-47 of the source) -/

/-- The fixed text of the prompt f-string before
`{', '.join(participant_names)}`. -/
def promptHeader : String :=
  "\n    Based on the following meeting summary, create a detailed Mermaid flowchart that shows:\n    1. The main discussion flow and topics\n    2. Key decisions and action items\n    3. Participants and their contributions (identify which parts belong to which participant)\n    4. Timeline progression of the meeting\n    5. Any risks or concerns mentioned\n\n    There are only 2 participants: "

/-- The fixed prompt text between the participant list and
`{meeting_summary}`. -/
def promptAfterNames : String := ".\n\n    Meeting Summary:\n    "

/-- The fixed prompt text after `{meeting_summary}`. -/
def promptFooter : String :=
  "\n\n    Please generate a Mermaid flowchart syntax that can be directly used to render the diagram.\n    Use different shapes for different types of nodes (decisions, processes, participants, etc.).\n    Make it comprehensive but readable.\n\n    Return only the Mermaid syntax, no additional text or explanations.\n    "

/-- The prompt built by `generate_meeting_flowchart` (lines 16-34). -/
def buildPrompt (meeting_summary : String) (participant_names : List String) :
    String :=
  promptHeader ++ commaJoin participant_names ++ promptAfterNames ++
    meeting_summary ++ promptFooter

/-- Source function `generate_meeting_flowchart` with the completion service stubbed as a
function from the user-role prompt to the reply text: builds the prompt,
queries the service, and returns `response...content.strip()`
(lines 36-47). -/
def generate_meeting_flowchart (meeting_summary : String)
    (participant_names : List String) (completion : String → String) :
    String :=
  pyStrip (completion (buildPrompt meeting_summary participant_names))

/-! ## The diagram renderer (lines 49-78 of the source) -/

/-- Fixed prefix of the Kroki URL: base endpoint plus the
diagram-format (`mermaid`) and image-format (`svg`) segments (line 58). -/
def krokiBase : String := "https://kroki.io/mermaid/svg/"

/-- The URL constructed by `render_mermaid_to_svg` (lines 54-58), as code
points: the fixed prefix followed by the URL-safe base64 encoding of the
UTF-8 bytes of the markup. -/
def krokiUrl (mermaid_code : String) : List Nat :=
  strCodepoints krokiBase ++ b64encode (utf8Encode (strCodepoints mermaid_code))

/-- The payload segment of a rendering URL: what follows the fixed base,
diagram-format and image-format segments. -/
def urlPayload (url : List Nat) : List Nat :=
  url.drop (strCodepoints krokiBase).length

/-- Stubbed outcome of `urllib.request.urlopen` for one request: a response
body, an `urllib.error.HTTPError` with a status code, or any other
exception (DNS or connection failure, malformed URL, ...). -/
inductive UrlopenOutcome where
  | ok (body : List Nat)
  | httpError (code : Nat)
  | otherExc
deriving DecidableEq

/-- Python exceptions that the render step can surface. -/
inductive PyExc where
  | httpError (code : Nat)
  | urlError
  | unicodeDecodeError
deriving DecidableEq

/-- Whether an exception is an `urllib.error.HTTPError` — the only class
named by the `except` clause on line 69. -/
def PyExc.isHTTPError : PyExc → Bool
  | .httpError _ => true
  | _ => false

/-- Python `urllib.request.urlopen(req)` followed by `response.read()`
(lines 61-62): the body bytes, or an exception. -/
def fetchBody : UrlopenOutcome → Except PyExc (List Nat)
  | .ok body => .ok body
  | .httpError code => .error (.httpError code)
  | .otherExc => .error .urlError

/-- Python `.decode('utf-8')` (line 63): the decoded code points, or
`UnicodeDecodeError`. -/
def decodeBody (bs : List Nat) : Except PyExc (List Nat) :=
  match utf8Decode bs with
  | some cs => .ok cs
  | none => .error .unicodeDecodeError

/-- The body of the `try` block of `render_mermaid_to_svg` (lines 61-63):
fetch the constructed URL and UTF-8-decode the response body. -/
def tryFetchDecode (resp : UrlopenOutcome) : Except PyExc (List Nat) :=
  (fetchBody resp).bind decodeBody

/-- Observable outcome of one `render_mermaid_to_svg` invocation: exactly
one file written (the image, as decoded code points, or the fallback text),
or an uncaught exception with nothing written. -/
inductive RenderResult where
  | wroteImage (file : String) (content : List Nat)
  | wroteFallback (file : String) (content : String)
  | raised (e : PyExc)
deriving DecidableEq

/-- Source function `render_mermaid_to_svg(mermaid_code, output_file)` (lines 49-78), with
the network stubbed as a function from the request URL to an outcome.  On
success, writes the decoded body to `output_file`; on `HTTPError`, writes
`mermaid_code` to `output_file.replace('.svg', '.mermaid')`; any other
exception propagates.  (In the source `output_file` defaults to
`"meeting_flowchart.svg"`.)  `handleRender` is the tail of the `try` block
(lines 65-68: write the image file) together with the `except` clause
(lines 69-78: on `HTTPError` write the fallback text file, otherwise let
the exception propagate). -/
def handleRender (mermaid_code : String) (output_file : String) :
    Except PyExc (List Nat) → RenderResult
  | .ok svg_content => .wroteImage output_file svg_content
  | .error e =>
    if e.isHTTPError then
      .wroteFallback (pyReplaceSvgExt output_file) mermaid_code
    else .raised e

def render_mermaid_to_svg (mermaid_code : String) (output_file : String)
    (service : List Nat → UrlopenOutcome) : RenderResult :=
  handleRender mermaid_code output_file
    (tryFetchDecode (service (krokiUrl mermaid_code)))

/-- Whether the invocation ended in an uncaught exception. -/
def RenderResult.raisesExc : RenderResult → Bool
  | .raised _ => true
  | _ => false

/-- The image file written, if any, with its content. -/
def RenderResult.image : RenderResult → Option (String × List Nat)
  | .wroteImage f c => some (f, c)
  | _ => none

/-- The fallback text file written, if any, with its content. -/
def RenderResult.fallback : RenderResult → Option (String × String)
  | .wroteFallback f c => some (f, c)
  | _ => none

/-! ## The `__main__` pipeline (lines 80-116 of the source) -/

/-- Source literal `participant_names` (line 80). -/
def participant_names : List String :=
  ["Alex (Project Manager)", "Sarah (Lead Developer)"]

/-- Source literal `meeting_summary_parts` (lines 82-94). -/
def meeting_summary_parts : List String :=
  ["0-10s: Alex opens the meeting by greeting Sarah and stating the goal: to improve the login process based on user feedback about slow times and confusing resets.",
   "10-20s: Sarah agrees and suggests simplifying the steps, like adding a \"remember me\" option without extra complications.",
   "20-30s: Alex asks about priorities, mentioning integrating social media logins like Google or Apple.",
   "30-40s: Sarah prioritizes that and better error messages, estimating it could take 5-7 days to develop.",
   "40-50s: Alex brings up potential risks, such as changes from third-party providers affecting the social logins.",
   "50-60s: Sarah notes they\x27ll monitor those updates closely and suggests a mid-week check-in to track progress.",
   "60-70s: Alex assigns action items: Sarah to start coding the \"remember me\" feature soon, and himself to check API docs.",
   "70-80s: Sarah confirms she\x27s on it and asks if the design needs any tweaks for mobile.",
   "80-90s: Alex says the current wireframes look good and user-friendly, no major changes needed.",
   "90-100s: Sarah wraps up by saying the plan feels solid and they\x27re aligned.",
   "100-110s: Alex agrees, schedules the next check-in, and ends the call positively."]

/-- Source line `meeting_summary = "\n".join(meeting_summary_parts)` (line 98). -/
def meeting_summary : String := String.intercalate "\n" meeting_summary_parts

/-- The full `__main__` pipeline (lines 97-116) with both collaborators
stubbed: generate the flowchart, build the Markdown file contents
(lines 107-111), and render.  Returns the Markdown contents and the render
outcome. -/
def runPipeline (completion : String → String)
    (service : List Nat → UrlopenOutcome) : String × RenderResult :=
  let flowchart_code :=
    generate_meeting_flowchart meeting_summary participant_names completion
  let md := "# Meeting Flowchart\n\n" ++ "```mermaid\n" ++ flowchart_code ++
    "\n```\n"
  (md, render_mermaid_to_svg flowchart_code "meeting_flowchart.svg" service)

/-! ## Properties -/

theorem utf8EncodeChar_byte_lt (c : Nat) (hc : c < 0x110000) :
    ∀ b ∈ utf8EncodeChar c, b < 256 := by
  intro b hb
  unfold utf8EncodeChar at hb
  split at hb
  · simp only [List.mem_singleton] at hb; omega
  · split at hb
    · simp only [List.mem_cons, List.not_mem_nil, or_false] at hb
      rcases hb with h | h <;> omega
    · split at hb
      · simp only [List.mem_cons, List.not_mem_nil, or_false] at hb
        rcases hb with h | h | h <;> omega
      · simp only [List.mem_cons, List.not_mem_nil, or_false] at hb
        rcases hb with h | h | h | h <;> omega

theorem utf8EncodeChar_ne_nil (c : Nat) : utf8EncodeChar c ≠ [] := by
  unfold utf8EncodeChar
  split
  · simp
  · split
    · simp
    · split <;> simp

/-- Soundness of one decoding step: any decoded code point re-encodes to
exactly the bytes consumed, is a scalar value, and strictly shrinks the
input. -/
theorem utf8DecodeStep_sound (bs : List Nat) (c : Nat) (rest : List Nat)
    (h : utf8DecodeStep bs = some (c, rest)) :
    utf8EncodeChar c ++ rest = bs ∧ ScalarValue c ∧
      rest.length < bs.length := by
  cases bs with
  | nil => simp [utf8DecodeStep] at h
  | cons b1 tail =>
    simp only [utf8DecodeStep] at h
    split at h
    · rename_i h1
      obtain ⟨rfl, rfl⟩ : b1 = c ∧ tail = rest := by
        simpa using h
      refine ⟨?_, ?_, ?_⟩
      · rw [utf8EncodeChar, if_pos h1]
        simp
      · left; omega
      · simp
    · rename_i hn1
      split at h
      · simp at h
      · rename_i hn2
        split at h
        · -- two-byte lead
          rename_i h2
          cases tail with
          | nil => simp [utf8Decode2] at h
          | cons b2 tail2 =>
            simp only [utf8Decode2] at h
            split at h
            · rename_i hcont
              simp only [Option.some.injEq, Prod.mk.injEq] at h
              obtain ⟨rfl, rfl⟩ := h
              refine ⟨?_, ?_, ?_⟩
              · rw [utf8EncodeChar, if_neg (by omega), if_pos (by omega)]
                simp only [List.cons_append, List.nil_append, List.cons.injEq]
                refine ⟨by omega, by omega, trivial⟩
              · left; omega
              · simp only [List.length_cons]; omega
            · simp at h
        · rename_i hn3
          split at h
          · -- three-byte lead
            rename_i h3
            match tail with
            | [] => simp [utf8Decode3] at h
            | [b2] => simp [utf8Decode3] at h
            | b2 :: b3 :: tail3 =>
              simp only [utf8Decode3] at h
              split at h
              · rename_i hcont
                split at h
                · simp at h
                · rename_i hov
                  split at h
                  · simp at h
                  · rename_i hsur
                    simp only [Option.some.injEq, Prod.mk.injEq] at h
                    obtain ⟨rfl, rfl⟩ := h
                    refine ⟨?_, ?_, ?_⟩
                    · rw [utf8EncodeChar, if_neg (by omega), if_neg (by omega),
                        if_pos (by omega)]
                      simp only [List.cons_append, List.nil_append,
                        List.cons.injEq]
                      refine ⟨by omega, by omega, by omega, trivial⟩
                    · unfold ScalarValue; omega
                    · simp only [List.length_cons]; omega
              · simp at h
          · rename_i hn4
            split at h
            · -- four-byte lead
              rename_i h4
              match tail with
              | [] => simp [utf8Decode4] at h
              | [b2] => simp [utf8Decode4] at h
              | [b2, b3] => simp [utf8Decode4] at h
              | b2 :: b3 :: b4 :: tail4 =>
                simp only [utf8Decode4] at h
                split at h
                · rename_i hcont
                  split at h
                  · simp at h
                  · rename_i hov
                    split at h
                    · simp at h
                    · rename_i hmax
                      simp only [Option.some.injEq, Prod.mk.injEq] at h
                      obtain ⟨rfl, rfl⟩ := h
                      refine ⟨?_, ?_, ?_⟩
                      · rw [utf8EncodeChar, if_neg (by omega),
                          if_neg (by omega), if_neg (by omega)]
                        simp only [List.cons_append, List.nil_append,
                          List.cons.injEq]
                        refine ⟨by omega, by omega, by omega, by omega, trivial⟩
                      · right; constructor <;> omega
                      · simp only [List.length_cons]; omega
                · simp at h
            · simp at h

/-- Completeness of one decoding step: the encoding of a scalar value
followed by anything decodes back to that scalar value. -/
theorem utf8DecodeStep_encodeChar (c : Nat) (h : ScalarValue c)
    (rest : List Nat) :
    utf8DecodeStep (utf8EncodeChar c ++ rest) = some (c, rest) := by
  rcases Nat.lt_or_ge c 0x80 with h1 | h1
  · rw [utf8EncodeChar, if_pos h1]
    simp only [List.cons_append, List.nil_append]
    rw [utf8DecodeStep, if_pos h1]
  · rcases Nat.lt_or_ge c 0x800 with h2 | h2
    · rw [utf8EncodeChar, if_neg (by omega), if_pos h2]
      simp only [List.cons_append, List.nil_append]
      rw [utf8DecodeStep, if_neg (by omega), if_neg (by omega),
        if_pos (by omega)]
      rw [utf8Decode2, if_pos (by constructor <;> omega)]
      have : (0xC0 + c / 64 - 0xC0) * 64 + (0x80 + c % 64 - 0x80) = c := by
        omega
      rw [this]
    · rcases Nat.lt_or_ge c 0x10000 with h3 | h3
      · rw [utf8EncodeChar, if_neg (by omega), if_neg (by omega), if_pos h3]
        simp only [List.cons_append, List.nil_append]
        rw [utf8DecodeStep, if_neg (by omega), if_neg (by omega),
          if_neg (by omega), if_pos (by omega)]
        rw [utf8Decode3, if_pos (by refine ⟨by omega, by omega, by omega, by omega⟩)]
        rw [if_neg (by omega)]
        have hsur : ¬(0xE0 + c / 4096 = 0xED ∧ 0xA0 ≤ 0x80 + c / 64 % 64) := by
          rcases h with h | h <;> omega
        rw [if_neg hsur]
        have : (0xE0 + c / 4096 - 0xE0) * 4096 +
            (0x80 + c / 64 % 64 - 0x80) * 64 + (0x80 + c % 64 - 0x80) = c := by
          omega
        rw [this]
      · have h4 : c < 0x110000 := by
          rcases h with h | h
          · omega
          · exact h.2
        rw [utf8EncodeChar, if_neg (by omega), if_neg (by omega),
          if_neg (by omega)]
        simp only [List.cons_append, List.nil_append]
        rw [utf8DecodeStep, if_neg (by omega), if_neg (by omega),
          if_neg (by omega), if_neg (by omega), if_pos (by omega)]
        rw [utf8Decode4,
          if_pos (by refine ⟨by omega, by omega, by omega, by omega, by omega, by omega⟩)]
        rw [if_neg (by omega)]
        rw [if_neg (by omega)]
        have : (0xF0 + c / 262144 - 0xF0) * 262144 +
            (0x80 + c / 4096 % 64 - 0x80) * 4096 +
            (0x80 + c / 64 % 64 - 0x80) * 64 + (0x80 + c % 64 - 0x80) = c := by
          omega
        rw [this]

/-- Any fuel of at least the input length gives the same decoding result:
the fuel in `utf8Decode` is an artifact of the embedding, not of the
modelled decoder. -/
theorem utf8DecodeLoop_fuel (fuel : Nat) :
    ∀ (fuel' : Nat) (bs : List Nat), bs.length ≤ fuel → bs.length ≤ fuel' →
      utf8DecodeLoop fuel bs = utf8DecodeLoop fuel' bs := by
  induction fuel with
  | zero =>
    intro fuel' bs h h'
    have : bs = [] := by
      cases bs
      · rfl
      · simp at h
    subst this
    cases fuel' <;> rfl
  | succ fuel ih =>
    intro fuel' bs h h'
    cases bs with
    | nil => cases fuel' <;> rfl
    | cons b1 rest =>
      cases fuel' with
      | zero => simp at h'
      | succ fuel' =>
        rw [utf8DecodeLoop, utf8DecodeLoop]
        cases hstep : utf8DecodeStep (b1 :: rest) with
        | none => rfl
        | some p =>
          obtain ⟨c, rest2⟩ := p
          simp only [Option.some_bind]
          have hs := utf8DecodeStep_sound _ _ _ hstep
          have hlen := hs.2.2
          simp only [List.length_cons] at hlen h h'
          rw [ih fuel' rest2 (by omega) (by omega)]

/-- Decoding inverts encoding on any list of scalar values. -/
theorem utf8Decode_utf8Encode (cs : List Nat)
    (h : ∀ c ∈ cs, ScalarValue c) : utf8Decode (utf8Encode cs) = some cs := by
  unfold utf8Decode
  suffices hgen : ∀ fuel, (utf8Encode cs).length ≤ fuel →
      utf8DecodeLoop fuel (utf8Encode cs) = some cs from
    hgen _ le_rfl
  induction cs with
  | nil =>
    intro fuel _
    cases fuel <;> rfl
  | cons c rest ih =>
    intro fuel hf
    have hc : ScalarValue c := h c (List.mem_cons_self c rest)
    have hr : ∀ x ∈ rest, ScalarValue x :=
      fun x hx => h x (List.mem_cons_of_mem c hx)
    have hsplit : utf8Encode (c :: rest) = utf8EncodeChar c ++ utf8Encode rest := by
      simp [utf8Encode]
    rw [hsplit] at hf ⊢
    obtain ⟨b, bs, hb⟩ : ∃ b bs, utf8EncodeChar c = b :: bs := by
      cases hcl : utf8EncodeChar c with
      | nil => exact absurd hcl (utf8EncodeChar_ne_nil c)
      | cons b bs => exact ⟨b, bs, rfl⟩
    cases fuel with
    | zero =>
      rw [hb] at hf
      simp at hf
    | succ fuel =>
      rw [hb, List.cons_append, utf8DecodeLoop, ← List.cons_append, ← hb,
        utf8DecodeStep_encodeChar c hc]
      simp only [Option.some_bind]
      have hlen : (utf8Encode rest).length ≤ fuel := by
        rw [hb] at hf
        simp only [List.length_append, List.length_cons] at hf
        omega
      rw [ih hr fuel hlen]
      rfl

/-- Encoding inverts decoding: a byte sequence that decodes successfully is
exactly the encoding of its decoding (so in particular it was valid UTF-8,
with no overlong forms). -/
theorem utf8Encode_utf8Decode (fuel : Nat) (bs cs : List Nat)
    (h : utf8DecodeLoop fuel bs = some cs) : utf8Encode cs = bs := by
  induction fuel generalizing bs cs with
  | zero =>
    cases bs with
    | nil =>
      obtain rfl : cs = [] := by simpa [utf8DecodeLoop] using h.symm
      rfl
    | cons b rest => simp [utf8DecodeLoop] at h
  | succ fuel ih =>
    cases bs with
    | nil =>
      obtain rfl : cs = [] := by simpa [utf8DecodeLoop] using h.symm
      rfl
    | cons b1 rest =>
      rw [utf8DecodeLoop] at h
      cases hstep : utf8DecodeStep (b1 :: rest) with
      | none => rw [hstep] at h; simp at h
      | some p =>
        obtain ⟨c, rest2⟩ := p
        rw [hstep] at h
        simp only [Option.some_bind] at h
        cases hloop : utf8DecodeLoop fuel rest2 with
        | none => rw [hloop] at h; simp at h
        | some cs2 =>
          rw [hloop] at h
          obtain rfl : c :: cs2 = cs := by simpa using h
          have hs := utf8DecodeStep_sound _ _ _ hstep
          have : utf8Encode (c :: cs2) = utf8EncodeChar c ++ utf8Encode cs2 := by
            simp [utf8Encode]
          rw [this, ih rest2 cs2 hloop, hs.1]

theorem b64CharInv_b64Char : ∀ v < 64, b64CharInv (b64Char v) = v := by decide

theorem b64Char_ne_pad : ∀ v < 64, b64Char v ≠ 61 := by decide

/-- URL-safe base64 decoding inverts encoding on any byte list. -/
theorem b64decode_b64encode (bs : List Nat) (h : ∀ b ∈ bs, b < 256) :
    b64decode (b64encode bs) = bs := by
  induction bs using b64encode.induct with
  | case1 => rfl
  | case2 b1 =>
    have hb1 : b1 < 256 := h b1 (by simp)
    rw [b64encode, b64decode, if_pos rfl, if_pos rfl]
    rw [b64CharInv_b64Char _ (by omega), b64CharInv_b64Char _ (by omega)]
    simp only [List.cons.injEq]
    constructor
    · omega
    · trivial
  | case3 b1 b2 =>
    have hb1 : b1 < 256 := h b1 (by simp)
    have hb2 : b2 < 256 := h b2 (by simp)
    rw [b64encode, b64decode, if_pos rfl,
      if_neg (b64Char_ne_pad _ (by omega))]
    rw [b64CharInv_b64Char _ (by omega), b64CharInv_b64Char _ (by omega),
      b64CharInv_b64Char _ (by omega)]
    simp only [List.cons.injEq]
    refine ⟨by omega, by omega, trivial⟩
  | case4 b1 b2 b3 rest ih =>
    have hb1 : b1 < 256 := h b1 (by simp)
    have hb2 : b2 < 256 := h b2 (by simp)
    have hb3 : b3 < 256 := h b3 (by simp)
    have hrest : ∀ b ∈ rest, b < 256 := fun b hb => h b (by simp [hb])
    rw [b64encode, b64decode, if_neg (b64Char_ne_pad _ (by omega))]
    rw [b64CharInv_b64Char _ (by omega), b64CharInv_b64Char _ (by omega),
      b64CharInv_b64Char _ (by omega), b64CharInv_b64Char _ (by omega)]
    rw [ih hrest]
    simp only [List.cons.injEq]
    refine ⟨by omega, by omega, by omega, trivial⟩

theorem char_scalarValue (c : Char) : ScalarValue c.toNat := by
  have h := c.valid
  unfold ScalarValue
  rcases h with h | h
  · left; exact h
  · right; exact h

theorem strCodepoints_scalar (s : String) :
    ∀ x ∈ strCodepoints s, ScalarValue x := by
  intro x hx
  simp only [strCodepoints, List.mem_map] at hx
  obtain ⟨c, _, rfl⟩ := hx
  exact char_scalarValue c

theorem utf8Encode_str_byte_lt (s : String) :
    ∀ b ∈ utf8Encode (strCodepoints s), b < 256 := by
  intro b hb
  simp only [utf8Encode, List.mem_flatten, List.mem_map] at hb
  obtain ⟨l, ⟨c, hc, rfl⟩, hbl⟩ := hb
  have hs := strCodepoints_scalar s c hc
  have : c < 0x110000 := by
    rcases hs with h | h
    · omega
    · exact h.2
  exact utf8EncodeChar_byte_lt c this b hbl

/-! ## Claims -/

/-- Claim C3: for every description text (including the empty string and
strings containing non-ASCII characters), the payload segment of the URL
constructed by `render_mermaid_to_svg` — the part after the fixed base,
diagram-format and image-format segments — is the URL-safe base64 encoding
of the UTF-8 bytes of the text, and decoding that segment reproduces the
original description text exactly. -/
theorem claimC3_payload_roundtrip (s : String) :
    urlPayload (krokiUrl s) = b64encode (utf8Encode (strCodepoints s)) ∧
    utf8Decode (b64decode (urlPayload (krokiUrl s))) =
      some (strCodepoints s) := by
  have hpay : urlPayload (krokiUrl s) =
      b64encode (utf8Encode (strCodepoints s)) := by
    rw [urlPayload, krokiUrl, List.drop_left]
  refine ⟨hpay, ?_⟩
  rw [hpay, b64decode_b64encode _ (utf8Encode_str_byte_lt s),
    utf8Decode_utf8Encode _ (strCodepoints_scalar s)]

/-- Claim C1: for every description text and every rendering response that
is an HTTP-level error, `render_mermaid_to_svg` does not raise: it writes a
fallback text file whose contents equal the original (unencoded)
description text exactly, and writes no image file. -/
theorem claimC1_httpError_fallback (mermaid_code output_file : String)
    (service : List Nat → UrlopenOutcome) (code : Nat)
    (hresp : service (krokiUrl mermaid_code) = UrlopenOutcome.httpError code) :
    (render_mermaid_to_svg mermaid_code output_file service).raisesExc =
      false ∧
    (render_mermaid_to_svg mermaid_code output_file service).fallback =
      some (pyReplaceSvgExt output_file, mermaid_code) ∧
    (render_mermaid_to_svg mermaid_code output_file service).image = none := by
  rw [render_mermaid_to_svg, hresp]
  simp [tryFetchDecode, fetchBody, handleRender, PyExc.isHTTPError,
    RenderResult.raisesExc, RenderResult.fallback, RenderResult.image,
    Except.bind]

theorem claimC1_witness :
    (render_mermaid_to_svg "graph TD" "meeting_flowchart.svg"
      (fun _ => UrlopenOutcome.httpError 500)).raisesExc = false ∧
    (render_mermaid_to_svg "graph TD" "meeting_flowchart.svg"
      (fun _ => UrlopenOutcome.httpError 500)).fallback =
      some (pyReplaceSvgExt "meeting_flowchart.svg", "graph TD") ∧
    (render_mermaid_to_svg "graph TD" "meeting_flowchart.svg"
      (fun _ => UrlopenOutcome.httpError 500)).image = none :=
  claimC1_httpError_fallback "graph TD" "meeting_flowchart.svg"
    (fun _ => UrlopenOutcome.httpError 500) 500 rfl

/-- Claim C2 as stated is false: a success response whose body is not valid
UTF-8 makes `render_mermaid_to_svg` raise `UnicodeDecodeError` instead of
writing the body to the image file. -/
theorem claimC2_counterexample :
    (render_mermaid_to_svg "a" "out.svg"
      (fun _ => UrlopenOutcome.ok [255])).image = none ∧
    (render_mermaid_to_svg "a" "out.svg"
      (fun _ => UrlopenOutcome.ok [255])).raisesExc = true := by
  constructor <;> rfl

/-- Claim C2, amended: for every description text and every success
response whose body is valid UTF-8, `render_mermaid_to_svg` writes the
output image file with contents whose bytes equal the response body
exactly, and creates no fallback text file. -/
theorem claimC2_success_writes_body (mermaid_code output_file : String)
    (service : List Nat → UrlopenOutcome) (body cs : List Nat)
    (hresp : service (krokiUrl mermaid_code) = UrlopenOutcome.ok body)
    (hdec : utf8Decode body = some cs) :
    render_mermaid_to_svg mermaid_code output_file service =
      RenderResult.wroteImage output_file cs ∧
    utf8Encode cs = body ∧
    (render_mermaid_to_svg mermaid_code output_file service).fallback =
      none := by
  have h1 : render_mermaid_to_svg mermaid_code output_file service =
      RenderResult.wroteImage output_file cs := by
    rw [render_mermaid_to_svg, hresp]
    simp [tryFetchDecode, fetchBody, decodeBody, hdec, handleRender,
      Except.bind]
  refine ⟨h1, utf8Encode_utf8Decode body.length body cs hdec, ?_⟩
  rw [h1]
  rfl

theorem claimC2_witness :
    render_mermaid_to_svg "a" "out.svg"
      (fun _ => UrlopenOutcome.ok [104, 105]) =
      RenderResult.wroteImage "out.svg" [104, 105] ∧
    utf8Encode [104, 105] = [104, 105] ∧
    (render_mermaid_to_svg "a" "out.svg"
      (fun _ => UrlopenOutcome.ok [104, 105])).fallback = none :=
  claimC2_success_writes_body "a" "out.svg"
    (fun _ => UrlopenOutcome.ok [104, 105]) [104, 105] [104, 105] rfl rfl

/-- Claim C10: if the rendering service returns a success response whose
body bytes are not valid UTF-8, `render_mermaid_to_svg` raises an unhandled
decoding error and writes neither the image file nor the fallback text
file; the success path only ever writes the UTF-8 decoding of the body. -/
theorem claimC10_success_decodes_utf8 (mermaid_code output_file : String)
    (service : List Nat → UrlopenOutcome) (body : List Nat)
    (hresp : service (krokiUrl mermaid_code) = UrlopenOutcome.ok body) :
    (utf8Decode body = none →
      render_mermaid_to_svg mermaid_code output_file service =
        RenderResult.raised PyExc.unicodeDecodeError ∧
      (render_mermaid_to_svg mermaid_code output_file service).image =
        none ∧
      (render_mermaid_to_svg mermaid_code output_file service).fallback =
        none) ∧
    (∀ cs, utf8Decode body = some cs →
      render_mermaid_to_svg mermaid_code output_file service =
        RenderResult.wroteImage output_file cs) := by
  constructor
  · intro hdec
    have h1 : render_mermaid_to_svg mermaid_code output_file service =
        RenderResult.raised PyExc.unicodeDecodeError := by
      rw [render_mermaid_to_svg, hresp]
      simp [tryFetchDecode, fetchBody, decodeBody, hdec, handleRender,
        PyExc.isHTTPError, Except.bind]
    exact ⟨h1, by rw [h1]; rfl, by rw [h1]; rfl⟩
  · intro cs hdec
    rw [render_mermaid_to_svg, hresp]
    simp [tryFetchDecode, fetchBody, decodeBody, hdec, handleRender,
      Except.bind]

theorem claimC10_witness :
    render_mermaid_to_svg "a" "out.svg"
      (fun _ => UrlopenOutcome.ok [255]) =
      RenderResult.raised PyExc.unicodeDecodeError ∧
    (render_mermaid_to_svg "a" "out.svg"
      (fun _ => UrlopenOutcome.ok [255])).image = none ∧
    (render_mermaid_to_svg "a" "out.svg"
      (fun _ => UrlopenOutcome.ok [255])).fallback = none :=
  (claimC10_success_decodes_utf8 "a" "out.svg"
    (fun _ => UrlopenOutcome.ok [255]) [255] rfl).1 rfl

/-- Claim C4: for every description text and every rendering response,
an invocation of `render_mermaid_to_svg` that does not end in an unhandled
exception writes exactly one of the two possible files — the rendered image
or the fallback text — never both and never neither. -/
theorem claimC4_exactly_one_file (mermaid_code output_file : String)
    (service : List Nat → UrlopenOutcome)
    (h : (render_mermaid_to_svg mermaid_code output_file service).raisesExc =
      false) :
    ((render_mermaid_to_svg mermaid_code output_file service).image.isSome =
        true ∧
      (render_mermaid_to_svg mermaid_code output_file service).fallback =
        none) ∨
    ((render_mermaid_to_svg mermaid_code output_file service).image = none ∧
      (render_mermaid_to_svg mermaid_code output_file
        service).fallback.isSome = true) := by
  cases htry : tryFetchDecode (service (krokiUrl mermaid_code)) with
  | ok cs =>
    left
    rw [render_mermaid_to_svg, htry]
    simp [handleRender, RenderResult.image, RenderResult.fallback]
  | error e =>
    cases he : e.isHTTPError with
    | true =>
      right
      rw [render_mermaid_to_svg, htry]
      simp [handleRender, he, RenderResult.image, RenderResult.fallback]
    | false =>
      exfalso
      rw [render_mermaid_to_svg, htry] at h
      simp [handleRender, he, RenderResult.raisesExc] at h

theorem claimC4_witness :
    (render_mermaid_to_svg "a" "out.svg"
      (fun _ => UrlopenOutcome.httpError 404)).raisesExc = false ∧
    (((render_mermaid_to_svg "a" "out.svg"
        (fun _ => UrlopenOutcome.httpError 404)).image.isSome = true ∧
      (render_mermaid_to_svg "a" "out.svg"
        (fun _ => UrlopenOutcome.httpError 404)).fallback = none) ∨
    ((render_mermaid_to_svg "a" "out.svg"
        (fun _ => UrlopenOutcome.httpError 404)).image = none ∧
      (render_mermaid_to_svg "a" "out.svg"
        (fun _ => UrlopenOutcome.httpError 404)).fallback.isSome = true)) :=
  ⟨rfl, claimC4_exactly_one_file "a" "out.svg"
    (fun _ => UrlopenOutcome.httpError 404) rfl⟩

/-- Claim C7: `render_mermaid_to_svg` recovers from exactly one failure
kind — an HTTP-level error from the rendering service; every other failure
during the render step is not caught and propagates to the caller: the call
raises if and only if a non-HTTP-error failure occurs. -/
theorem claimC7_raises_iff (mermaid_code output_file : String)
    (service : List Nat → UrlopenOutcome) :
    (∀ e, render_mermaid_to_svg mermaid_code output_file service =
        RenderResult.raised e ↔
      (tryFetchDecode (service (krokiUrl mermaid_code)) = Except.error e ∧
        e.isHTTPError = false)) ∧
    (∀ code, tryFetchDecode (service (krokiUrl mermaid_code)) =
        Except.error (PyExc.httpError code) →
      render_mermaid_to_svg mermaid_code output_file service =
        RenderResult.wroteFallback (pyReplaceSvgExt output_file)
          mermaid_code) := by
  constructor
  · intro e
    constructor
    · intro h
      rw [render_mermaid_to_svg] at h
      cases htry : tryFetchDecode (service (krokiUrl mermaid_code)) with
      | ok cs =>
        rw [htry] at h
        simp [handleRender] at h
      | error e2 =>
        rw [htry] at h
        cases he2 : e2.isHTTPError with
        | true => simp [handleRender, he2] at h
        | false =>
          have he : e2 = e := by
            simpa [handleRender, he2] using h
          subst he
          exact ⟨rfl, he2⟩
    · rintro ⟨htry, hfalse⟩
      rw [render_mermaid_to_svg, htry]
      simp [handleRender, hfalse]
  · intro code htry
    rw [render_mermaid_to_svg, htry]
    simp [handleRender, PyExc.isHTTPError]

theorem claimC7_witness :
    render_mermaid_to_svg "a" "out.svg" (fun _ => UrlopenOutcome.httpError 500) =
      RenderResult.wroteFallback (pyReplaceSvgExt "out.svg") "a" :=
  (claimC7_raises_iff "a" "out.svg"
    (fun _ => UrlopenOutcome.httpError 500)).2 500 rfl

/-- Claim C9: for any fixed completion-service response function and fixed
rendering-service response function, two runs of the full pipeline produce
identical output files: the pipeline is a deterministic function of the two
stubbed collaborators, with no hidden state. -/
theorem claimC9_pipeline_deterministic (completion completion2 : String → String)
    (service service2 : List Nat → UrlopenOutcome)
    (hc : completion = completion2) (hs : service = service2) :
    runPipeline completion service = runPipeline completion2 service2 := by
  rw [hc, hs]

theorem claimC9_witness :
    runPipeline (fun _ => "graph TD") (fun _ => UrlopenOutcome.httpError 1) =
      runPipeline (fun _ => "graph TD") (fun _ => UrlopenOutcome.httpError 1) :=
  claimC9_pipeline_deterministic (fun _ => "graph TD")
    (fun _ => "graph TD") (fun _ => UrlopenOutcome.httpError 1)
    (fun _ => UrlopenOutcome.httpError 1) rfl rfl

theorem replaceSvgAux_cons_ne (c : Char) (l : List Char)
    (h : ¬(c = '.' ∧ l.take 3 = ['s', 'v', 'g'])) :
    replaceSvgAux (c :: l) = c :: replaceSvgAux l := by
  rw [replaceSvgAux.eq_def]
  split
  · rename_i rest heq
    exfalso
    apply h
    injection heq with h1 h2
    subst h1
    constructor
    · rfl
    · rw [h2]; rfl
  · rename_i c2 rest hne heq
    injection heq with h1 h2
    subst h1; subst h2
    rfl
  · rename_i heq
    exact absurd heq (by simp)

theorem hasSvgOcc_cons (c : Char) (l : List Char)
    (h : hasSvgOcc (c :: l) = false) :
    hasSvgOcc l = false ∧ ¬(c = '.' ∧ l.take 3 = ['s', 'v', 'g']) := by
  rw [hasSvgOcc.eq_def] at h
  split at h
  · simp at h
  · rename_i c2 rest hne heq
    injection heq with h1 h2
    subst h1; subst h2
    refine ⟨h, ?_⟩
    rintro ⟨rfl, htake⟩
    have hl : l = 's' :: 'v' :: 'g' :: l.drop 3 := by
      conv_lhs => rw [← List.take_append_drop 3 l]
      rw [htake]
      rfl
    exact hne (l.drop 3) rfl hl
  · rename_i heq
    exact absurd heq (by simp)

theorem take3_append_svg (l : List Char)
    (h : (l ++ ['.', 's', 'v', 'g']).take 3 = ['s', 'v', 'g']) :
    l.take 3 = ['s', 'v', 'g'] := by
  match l with
  | [] => exact absurd h (by decide)
  | [a] =>
    exfalso
    simp at h
  | [a, b] =>
    exfalso
    simp at h
  | a :: b :: d :: t =>
    simpa using h

/-- On a file name that ends in `.svg` and contains no other occurrence of
`.svg`, the replacement swaps exactly the extension. -/
theorem replaceSvgAux_append_svg (stem : List Char)
    (h : hasSvgOcc stem = false) :
    replaceSvgAux (stem ++ ['.', 's', 'v', 'g']) = stem ++ ".mermaid".data := by
  induction stem with
  | nil => rfl
  | cons c l ih =>
    obtain ⟨h1, h2⟩ := hasSvgOcc_cons c l h
    rw [List.cons_append, replaceSvgAux_cons_ne, ih h1, List.cons_append]
    rintro ⟨rfl, ht⟩
    exact h2 ⟨rfl, take3_append_svg l ht⟩

theorem head?_dropWhile_false (p : Char → Bool) (l : List Char) (a : Char)
    (h : (l.dropWhile p).head? = some a) : p a = false := by
  have hd := List.head?_dropWhile_not p l
  rw [h] at hd
  exact hd

theorem getLast?_dropWhile_eq (p : Char → Bool) (l : List Char)
    (h : l.dropWhile p ≠ []) : (l.dropWhile p).getLast? = l.getLast? := by
  induction l with
  | nil => simp at h
  | cons c rest ih =>
    rw [List.dropWhile_cons]
    split
    · rename_i hp
      rw [List.dropWhile_cons, if_pos hp] at h
      have hne : rest ≠ [] := by
        intro hr
        rw [hr] at h
        simp at h
      rw [ih h]
      cases rest with
      | nil => exact absurd rfl hne
      | cons b t => rw [List.getLast?_cons_cons]
    · rfl

/-- Python `str.strip()` returns a contiguous substring of its argument: the argument splits as
whitespace, the result, whitespace, and the result has no whitespace at
either end. -/
theorem pyStripList_spec (cs : List Char) :
    (∃ pre post : List Char, cs = pre ++ pyStripList cs ++ post ∧
      (∀ c ∈ pre, isPySpace c = true) ∧ (∀ c ∈ post, isPySpace c = true)) ∧
    (∀ a, (pyStripList cs).head? = some a → isPySpace a = false) ∧
    (∀ a, (pyStripList cs).getLast? = some a → isPySpace a = false) := by
  refine ⟨⟨cs.takeWhile isPySpace,
    ((cs.dropWhile isPySpace).reverse.takeWhile isPySpace).reverse, ?_, ?_, ?_⟩,
    ?_, ?_⟩
  · conv_lhs => rw [← List.takeWhile_append_dropWhile isPySpace cs]
    rw [List.append_assoc]
    congr 1
    conv_lhs => rw [← List.reverse_reverse (cs.dropWhile isPySpace)]
    conv_lhs =>
      rw [← List.takeWhile_append_dropWhile isPySpace
        (cs.dropWhile isPySpace).reverse]
    rw [List.reverse_append]
    rfl
  · intro c hc
    exact List.mem_takeWhile_imp hc
  · intro c hc
    rw [List.mem_reverse] at hc
    exact List.mem_takeWhile_imp hc
  · intro a ha
    rw [pyStripList, List.head?_reverse] at ha
    by_cases hds : (cs.dropWhile isPySpace).reverse.dropWhile isPySpace = []
    · rw [hds] at ha
      simp at ha
    · rw [getLast?_dropWhile_eq _ _ hds, List.getLast?_reverse] at ha
      exact head?_dropWhile_false _ _ _ ha
  · intro a ha
    rw [pyStripList, List.getLast?_reverse] at ha
    exact head?_dropWhile_false _ _ _ ha

/-- Claim C5: for every transcript string and every two-element
participant-name list, the prompt constructed by
`generate_meeting_flowchart` contains both participant names verbatim and
the full transcript text as substrings. -/
theorem claimC5_prompt_contains (transcript pa pb : String) :
    pa.data <:+: (buildPrompt transcript [pa, pb]).data ∧
    pb.data <:+: (buildPrompt transcript [pa, pb]).data ∧
    transcript.data <:+: (buildPrompt transcript [pa, pb]).data := by
  have hjoin : commaJoin [pa, pb] = pa ++ ", " ++ pb := rfl
  have hsplit : (buildPrompt transcript [pa, pb]).data =
      promptHeader.data ++ (pa.data ++ ((", " : String).data ++ (pb.data ++
        (promptAfterNames.data ++ (transcript.data ++ promptFooter.data))))) := by
    rw [buildPrompt, hjoin]
    simp [String.data_append, List.append_assoc]
  rw [hsplit]
  refine ⟨?_, ?_, ?_⟩
  · exact ⟨promptHeader.data,
      (", " : String).data ++ (pb.data ++ (promptAfterNames.data ++
        (transcript.data ++ promptFooter.data))), by simp⟩
  · exact ⟨promptHeader.data ++ pa.data ++ (", " : String).data,
      promptAfterNames.data ++ (transcript.data ++ promptFooter.data),
      by simp⟩
  · exact ⟨promptHeader.data ++ pa.data ++ (", " : String).data ++ pb.data ++
      promptAfterNames.data, promptFooter.data, by simp⟩

/-- Claim C6: for every completion-service response text,
`generate_meeting_flowchart` returns exactly that text with leading and
trailing whitespace trimmed, with no additional wrapping or modification:
the response splits as whitespace, the returned text, whitespace, and the
returned text has no whitespace at either end. -/
theorem claimC6_generate_trims (ms : String) (names : List String)
    (completion : String → String) :
    (∃ pre post : List Char,
      (completion (buildPrompt ms names)).data =
        pre ++ (generate_meeting_flowchart ms names completion).data ++ post ∧
      (∀ c ∈ pre, isPySpace c = true) ∧
      (∀ c ∈ post, isPySpace c = true)) ∧
    (∀ a, (generate_meeting_flowchart ms names completion).data.head? =
      some a → isPySpace a = false) ∧
    (∀ a, (generate_meeting_flowchart ms names completion).data.getLast? =
      some a → isPySpace a = false) :=
  pyStripList_spec (completion (buildPrompt ms names)).data

theorem claimC6_witness :
    isPySpace 'x' = false ∧ isPySpace 'y' = false :=
  ⟨(claimC6_generate_trims "" [] (fun _ => " xy\n")).2.1 'x' (by decide),
   (claimC6_generate_trims "" [] (fun _ => " xy\n")).2.2 'y' (by decide)⟩

/-- Claim C8 as stated is false: the fallback name is computed by
`output_file.replace('.svg', '.mermaid')`, which replaces every occurrence
of `.svg`, not just the extension suffix: on `".svg.svg"` the code produces
`".mermaid.mermaid"` whereas swapping the extension suffix would produce
`".svg.mermaid"`. -/
theorem claimC8_counterexample :
    (render_mermaid_to_svg "a" ".svg.svg"
      (fun _ => UrlopenOutcome.httpError 500)).fallback =
      some (".mermaid.mermaid", "a") ∧
    specSwapExt ".svg.svg" = ".svg.mermaid" ∧
    (".mermaid.mermaid" : String) ≠ ".svg.mermaid" := by
  refine ⟨rfl, by decide, by decide⟩

/-- Claim C8, amended: on render failure the fallback file name is the
output name with every occurrence of `.svg` replaced by `.mermaid`; in
particular, whenever the output name ends in `.svg` and contains no other
occurrence of `.svg`, exactly the extension suffix is swapped and the rest
of the name is unchanged. -/
theorem claimC8_fallback_name (mermaid_code : String) (stem : List Char)
    (service : List Nat → UrlopenOutcome) (code : Nat)
    (hsvg : hasSvgOcc stem = false)
    (hresp : service (krokiUrl mermaid_code) = UrlopenOutcome.httpError code) :
    (∀ file : String,
      (render_mermaid_to_svg mermaid_code file service).fallback =
        some (pyReplaceSvgExt file, mermaid_code)) ∧
    (render_mermaid_to_svg mermaid_code
        (String.mk (stem ++ ['.', 's', 'v', 'g'])) service).fallback =
      some (String.mk (stem ++ ".mermaid".data), mermaid_code) := by
  have hall : ∀ file : String,
      (render_mermaid_to_svg mermaid_code file service).fallback =
        some (pyReplaceSvgExt file, mermaid_code) := by
    intro file
    rw [render_mermaid_to_svg, hresp]
    simp [tryFetchDecode, fetchBody, handleRender, PyExc.isHTTPError,
      RenderResult.fallback, Except.bind]
  refine ⟨hall, ?_⟩
  rw [hall (String.mk (stem ++ ['.', 's', 'v', 'g']))]
  rw [show pyReplaceSvgExt (String.mk (stem ++ ['.', 's', 'v', 'g'])) =
    String.mk (stem ++ ".mermaid".data) from by
      rw [pyReplaceSvgExt]
      rw [show (String.mk (stem ++ ['.', 's', 'v', 'g'])).data =
        stem ++ ['.', 's', 'v', 'g'] from rfl]
      rw [replaceSvgAux_append_svg stem hsvg]]

theorem claimC8_witness :
    (∀ file : String,
      (render_mermaid_to_svg "x" file
        (fun _ => UrlopenOutcome.httpError 404)).fallback =
        some (pyReplaceSvgExt file, "x")) ∧
    (render_mermaid_to_svg "x"
        (String.mk (['o', 'u', 't'] ++ ['.', 's', 'v', 'g']))
        (fun _ => UrlopenOutcome.httpError 404)).fallback =
      some (String.mk (['o', 'u', 't'] ++ ".mermaid".data), "x") :=
  claimC8_fallback_name "x" ['o', 'u', 't']
    (fun _ => UrlopenOutcome.httpError 404) 404 (by decide) rfl

end MeetingDiagram
